import Mathlib

/-!
Shallow embedding of the Todo-App backend (src/models.py, src/crud.py,
src/routers/todo.py) and verification of its specification claims.

Modelling conventions:
* timestamps are integer seconds since the epoch (`Int`); a calendar day is
  `Int.fdiv t 86400`, matching Python's `datetime.date()` on UTC datetimes;
* SQLAlchemy rows become Lean structures; nullable columns become `Option`;
* relationship tables (todo_tags, todo_assignees, todo_dependencies) are
  stored as id lists on the todo;
* the database session becomes an explicit `DB` state threaded through the
  crud functions; autoincrement ids are modelled as max-id-plus-one;
* Python dict payloads with optional keys become structures of `Option`
  fields (`none` = key absent).
-/

set_option maxRecDepth 4000

namespace TodoApp

/-- models.StatusLevel -/
inductive StatusLevel where
  | pending
  | in_progress
  | completed
  | cancelled
deriving DecidableEq, BEq, Repr

/-- models.PriorityLevel -/
inductive PriorityLevel where
  | low
  | medium
  | high
  | urgent
deriving DecidableEq, BEq, Repr

/-- models.RecurrencePattern -/
inductive RecurrencePattern where
  | none
  | daily
  | weekly
  | monthly
  | yearly
deriving DecidableEq, BEq, Repr

instance : LawfulBEq StatusLevel :=
  ⟨fun {a b} h => by cases a <;> cases b <;> first | rfl | exact absurd h (by decide),
   fun {a} => by cases a <;> decide⟩

instance : LawfulBEq PriorityLevel :=
  ⟨fun {a b} h => by cases a <;> cases b <;> first | rfl | exact absurd h (by decide),
   fun {a} => by cases a <;> decide⟩

instance : LawfulBEq RecurrencePattern :=
  ⟨fun {a b} h => by cases a <;> cases b <;> first | rfl | exact absurd h (by decide),
   fun {a} => by cases a <;> decide⟩

/-- models.Tag (columns used by the crud layer). -/
structure Tag where
  id : Nat
  name : String
deriving DecidableEq, Repr

/-- models.Category (columns used by the crud layer). -/
structure Category where
  id : Nat
  name : String
deriving DecidableEq, Repr

/-- models.User (columns used by the crud layer). -/
structure User where
  id : Nat
deriving DecidableEq, Repr

/-- One `{"start", "end", "duration"}` record of the time_entries JSON list
(the JSON key "end" is a Lean keyword, stored here as `stop`). -/
structure TimeEntry where
  start : Int
  stop : Int
  duration : Int
deriving DecidableEq, Repr

/-- models.Todo. -/
structure Todo where
  id : Nat
  title : String
  description : Option String
  status : StatusLevel
  priority : Option PriorityLevel
  due_date : Option Int
  category_id : Option Nat
  created_at : Int
  completed_at : Option Int
  is_archived : Bool
  estimated_duration : Option Int
  actual_duration : Option Int
  notes : Option String
  parent_id : Option Nat
  position : Int
  recurrence_pattern : RecurrencePattern
  recurrence_end_date : Option Int
  original_todo_id : Option Nat
  is_template : Bool
  template_name : Option String
  time_entries : List TimeEntry
  timer_started_at : Option Int
  reminder_datetime : Option Int
  reminder_sent : Bool
  pomodoro_count : Int
  pomodoro_target : Option Int
  created_by : Option Nat
  tag_ids : List Nat
  assignee_ids : List Nat
  dependency_ids : List Nat
deriving DecidableEq, Repr

/-- The details payload handed to log_activity (a Python dict whose shape
depends on the action kind). -/
inductive LogDetails where
  /-- Payload of "created"/"deleted" entries: the title only. -/
  | titleOnly (title : String)
  /-- Diff payload of "updated" entries: (key, old, new) triples. -/
  | changes (cs : List (String × String × String))
  /-- the raw update payload of "bulk_updated" entries. -/
  | bulkPayload (status : Option StatusLevel) (priority : Option PriorityLevel)
      (is_archived : Option Bool) (category_id : Option Nat)
deriving DecidableEq, Repr

/-- models.ActivityLog row. -/
structure ActivityEntry where
  todo_id : Nat
  user_id : Option Nat
  action : String
  details : LogDetails
deriving DecidableEq, Repr

/-- The relational store: the tables touched by the crud layer. -/
structure DB where
  todos : List Todo
  categories : List Category
  tags : List Tag
  users : List User
  activity : List ActivityEntry
deriving DecidableEq, Repr

/-- Lookup by primary key: `db.query(models.Todo).filter(models.Todo.id == todo_id).first()`. -/
def findTodo (db : DB) (todo_id : Nat) : Option Todo :=
  db.todos.find? (fun t => t.id == todo_id)

/-- Row update by primary key: every row whose id matches is rewritten
by `f` (ids are unique in the real store, so at most one row changes). -/
def mapTodo (db : DB) (todo_id : Nat) (f : Todo → Todo) : DB :=
  { db with todos := db.todos.map (fun t => if t.id == todo_id then f t else t) }

/-- log_activity: append one immutable row to the activity_logs table. -/
def log_activity (db : DB) (todo_id : Nat) (user_id : Option Nat)
    (action : String) (details : LogDetails) : DB :=
  { db with activity := db.activity ++ [⟨todo_id, user_id, action, details⟩] }

/-- Python `str.upper()` on the ASCII filter names, written at character
level so that concrete listings evaluate inside the kernel. -/
def toUpperStr (s : String) : String :=
  ⟨s.data.map Char.toUpper⟩

/-- Enum lookup `getattr(models.StatusLevel, s, None)` for an upper-cased string. -/
def parseStatus (s : String) : Option StatusLevel :=
  if s == "PENDING" then some .pending
  else if s == "IN_PROGRESS" then some .in_progress
  else if s == "COMPLETED" then some .completed
  else if s == "CANCELLED" then some .cancelled
  else none

/-- Enum lookup `getattr(models.PriorityLevel, s, None)` for an upper-cased string. -/
def parsePriority (s : String) : Option PriorityLevel :=
  if s == "LOW" then some .low
  else if s == "MEDIUM" then some .medium
  else if s == "HIGH" then some .high
  else if s == "URGENT" then some .urgent
  else none

/-- The explicit rank given by the `case` expression of get_todos' priority
sort: urgent 1, high 2, medium 3, low 4, anything else (NULL) 5. -/
def priorityRank : Option PriorityLevel → Nat
  | some .urgent => 1
  | some .high => 2
  | some .medium => 3
  | some .low => 4
  | _ => 5

/-- NULLs sort smallest (SQLite ordering for nullable columns). -/
def optIntLe (a b : Option Int) : Bool :=
  match a, b with
  | Option.none, _ => true
  | some _, Option.none => false
  | some x, some y => decide (x ≤ y)

/-- Bytewise string comparison standing in for the store's BINARY collation. -/
def strLe (a b : String) : Bool :=
  a == b || decide (a < b)

/-- Ascending comparison under get_todos' selected order_field. -/
def ascLe (sort_by : String) (a b : Todo) : Bool :=
  if sort_by == "due_date" then optIntLe a.due_date b.due_date
  else if sort_by == "priority" then decide (priorityRank a.priority ≤ priorityRank b.priority)
  else if sort_by == "title" then strLe a.title b.title
  else decide (a.created_at ≤ b.created_at)

/-- Comparison used by `order_by(order_field.asc())` and its `.desc()` reversal. -/
def todoLe (sort_by sort_order : String) (a b : Todo) : Bool :=
  if sort_order == "asc" then ascLe sort_by a b else ascLe sort_by b a

/-- Insert into a sorted list, keeping elements ordered by `le`. -/
def insertSorted (le : Todo → Todo → Bool) (a : Todo) : List Todo → List Todo
  | [] => [a]
  | b :: bs => if le a b then a :: b :: bs else b :: insertSorted le a bs

/-- Insertion sort standing in for the store's ORDER BY. -/
def sortTodos (le : Todo → Todo → Bool) : List Todo → List Todo
  | [] => []
  | a :: as => insertSorted le a (sortTodos le as)

/-- Does `needle` occur at the head of `hay`? -/
def leadMatch : List Char → List Char → Bool
  | [], _ => true
  | _ :: _, [] => false
  | a :: as, b :: bs => a == b && leadMatch as bs

/-- Does `needle` occur anywhere inside `hay`? -/
def containsChars (needle : List Char) : List Char → Bool
  | [] => leadMatch needle []
  | b :: bs => leadMatch needle (b :: bs) || containsChars needle bs

/-- Case-insensitive substring test: `column.ilike(f"%{search}%")`
(wildcard characters inside the search string are not modelled). -/
def ilikeContains (hay : Option String) (needle : String) : Bool :=
  match hay with
  | Option.none => false
  | some h => containsChars needle.toLower.data h.toLower.data

/-- The or_ of the three ilike filters of get_todos. -/
def searchPred (s : String) (t : Todo) : Bool :=
  ilikeContains (some t.title) s || ilikeContains t.description s || ilikeContains t.notes s

/-- Search branch of get_todos (`if search:`). -/
def filtSearch (search : Option String) (l : List Todo) : List Todo :=
  match search with
  | some s => if s.isEmpty then l else l.filter (searchPred s)
  | Option.none => l

/-- The status value the `completed` boolean is sugar for. -/
def completedSugar (b : Bool) : StatusLevel :=
  if b then .completed else .pending

/-- Completed-flag branch of get_todos (`if completed is not None:`). -/
def filtCompleted (completed : Option Bool) (l : List Todo) : List Todo :=
  match completed with
  | some b => l.filter (fun t => t.status == completedSugar b)
  | Option.none => l

/-- Priority branch of get_todos (`if priority:`; unparseable names apply no filter). -/
def filtPriority (priority : Option String) (l : List Todo) : List Todo :=
  match priority with
  | some p =>
      if p.isEmpty then l
      else
        match parsePriority (toUpperStr p) with
        | some pe => l.filter (fun t => t.priority == some pe)
        | Option.none => l
  | Option.none => l

/-- Category branch of get_todos: `Todo.category.has(name=category)`. -/
def filtCategory (db : DB) (category : Option String) (l : List Todo) : List Todo :=
  match category with
  | some c =>
      if c.isEmpty then l
      else l.filter (fun t => db.categories.any (fun cat => t.category_id == some cat.id && cat.name == c))
  | Option.none => l

/-- Status branch of get_todos (`if status:`; unparseable names apply no filter). -/
def filtStatus (status : Option String) (l : List Todo) : List Todo :=
  match status with
  | some s =>
      if s.isEmpty then l
      else
        match parseStatus (toUpperStr s) with
        | some se => l.filter (fun t => t.status == se)
        | Option.none => l
  | Option.none => l

/-- Archived-exclusion branch of get_todos (`if not include_archived:`). -/
def filtArchived (include_archived : Bool) (l : List Todo) : List Todo :=
  if include_archived then l else l.filter (fun t => t.is_archived == false)

/-- The filter chain of crud.get_todos in source order: top-level rows only,
archived excluded by default, then search / completed / priority / category /
status. -/
def queryChain (db : DB) (search : Option String) (completed : Option Bool)
    (priority : Option String) (category : Option String) (status : Option String)
    (include_archived : Bool) : List Todo :=
  filtStatus status
    (filtCategory db category
      (filtPriority priority
        (filtCompleted completed
          (filtSearch search
            (filtArchived include_archived
              (db.todos.filter (fun t => t.parent_id == Option.none)))))))

/-- crud.get_todos: the filter chain, then ORDER BY, then OFFSET/LIMIT. -/
def get_todos (db : DB) (skip limit : Nat) (search : Option String)
    (completed : Option Bool) (priority : Option String) (category : Option String)
    (status : Option String) (sort_by sort_order : String)
    (include_archived : Bool) : List Todo :=
  ((sortTodos (todoLe sort_by sort_order)
    (queryChain db search completed priority category status include_archived)).drop skip).take limit

/-! ### Mutation layer: update_todo -/

/-- schemas.TodoUpdate after `dict(exclude_unset=True)`: `none` means the key
was absent from the request.  Explicitly sending JSON `null` for an optional
scalar (which pydantic would pass through as a set-to-None) is not modelled;
no claim exercises it.  For the three relationship id lists the inner Option
keeps the source's `is not None` distinction. -/
structure TodoUpdate where
  title : Option String := Option.none
  description : Option String := Option.none
  status : Option StatusLevel := Option.none
  priority : Option PriorityLevel := Option.none
  due_date : Option Int := Option.none
  category_id : Option Nat := Option.none
  is_archived : Option Bool := Option.none
  estimated_duration : Option Int := Option.none
  actual_duration : Option Int := Option.none
  notes : Option String := Option.none
  tag_ids : Option (Option (List Nat)) := Option.none
  assignee_ids : Option (Option (List Nat)) := Option.none
  dependency_ids : Option (Option (List Nat)) := Option.none
  recurrence_pattern : Option RecurrencePattern := Option.none
  recurrence_end_date : Option Int := Option.none
  reminder_datetime : Option Int := Option.none
  pomodoro_target : Option Int := Option.none
deriving DecidableEq, Repr

/-- Python `str()` of a status enum member. -/
def statusStr : StatusLevel → String
  | .pending => "StatusLevel.PENDING"
  | .in_progress => "StatusLevel.IN_PROGRESS"
  | .completed => "StatusLevel.COMPLETED"
  | .cancelled => "StatusLevel.CANCELLED"

/-- Python `str()` of a priority enum member. -/
def priorityStr : PriorityLevel → String
  | .low => "PriorityLevel.LOW"
  | .medium => "PriorityLevel.MEDIUM"
  | .high => "PriorityLevel.HIGH"
  | .urgent => "PriorityLevel.URGENT"

/-- Python `str()` of a recurrence enum member. -/
def recurrenceStr : RecurrencePattern → String
  | .none => "RecurrencePattern.NONE"
  | .daily => "RecurrencePattern.DAILY"
  | .weekly => "RecurrencePattern.WEEKLY"
  | .monthly => "RecurrencePattern.MONTHLY"
  | .yearly => "RecurrencePattern.YEARLY"

/-- Python `str()` of an optional value (timestamps appear as their integer
seconds; `None` for NULL). -/
def optStr (f : α → String) : Option α → String
  | Option.none => "None"
  | some x => f x

/-- The `changes` diff built by update_todo's setattr loop: for each key
present in update_data, a `{"old", "new"}` pair when the value differs,
in the field-declaration order of schemas.TodoUpdate. -/
def changesOf (u : TodoUpdate) (t : Todo) : List (String × String × String) :=
  (match u.title with
   | some v => if t.title ≠ v then [("title", t.title, v)] else []
   | Option.none => []) ++
  (match u.description with
   | some v => if t.description ≠ some v then [("description", optStr id t.description, v)] else []
   | Option.none => []) ++
  (match u.status with
   | some v => if t.status ≠ v then [("status", statusStr t.status, statusStr v)] else []
   | Option.none => []) ++
  (match u.priority with
   | some v => if t.priority ≠ some v then [("priority", optStr priorityStr t.priority, priorityStr v)] else []
   | Option.none => []) ++
  (match u.due_date with
   | some v => if t.due_date ≠ some v then [("due_date", optStr toString t.due_date, toString v)] else []
   | Option.none => []) ++
  (match u.category_id with
   | some v => if t.category_id ≠ some v then [("category_id", optStr toString t.category_id, toString v)] else []
   | Option.none => []) ++
  (match u.is_archived with
   | some v => if t.is_archived ≠ v then [("is_archived", toString t.is_archived, toString v)] else []
   | Option.none => []) ++
  (match u.estimated_duration with
   | some v => if t.estimated_duration ≠ some v then [("estimated_duration", optStr toString t.estimated_duration, toString v)] else []
   | Option.none => []) ++
  (match u.actual_duration with
   | some v => if t.actual_duration ≠ some v then [("actual_duration", optStr toString t.actual_duration, toString v)] else []
   | Option.none => []) ++
  (match u.notes with
   | some v => if t.notes ≠ some v then [("notes", optStr id t.notes, v)] else []
   | Option.none => []) ++
  (match u.recurrence_pattern with
   | some v => if t.recurrence_pattern ≠ v then [("recurrence_pattern", recurrenceStr t.recurrence_pattern, recurrenceStr v)] else []
   | Option.none => []) ++
  (match u.recurrence_end_date with
   | some v => if t.recurrence_end_date ≠ some v then [("recurrence_end_date", optStr toString t.recurrence_end_date, toString v)] else []
   | Option.none => []) ++
  (match u.reminder_datetime with
   | some v => if t.reminder_datetime ≠ some v then [("reminder_datetime", optStr toString t.reminder_datetime, toString v)] else []
   | Option.none => []) ++
  (match u.pomodoro_target with
   | some v => if t.pomodoro_target ≠ some v then [("pomodoro_target", optStr toString t.pomodoro_target, toString v)] else []
   | Option.none => [])

/-- update_todo's setattr loop over the scalar keys of update_data. -/
def applyScalar (u : TodoUpdate) (t : Todo) : Todo :=
  { t with
    title := u.title.getD t.title
    description := (u.description.map some).getD t.description
    status := u.status.getD t.status
    priority := (u.priority.map some).getD t.priority
    due_date := (u.due_date.map some).getD t.due_date
    category_id := (u.category_id.map some).getD t.category_id
    is_archived := u.is_archived.getD t.is_archived
    estimated_duration := (u.estimated_duration.map some).getD t.estimated_duration
    actual_duration := (u.actual_duration.map some).getD t.actual_duration
    notes := (u.notes.map some).getD t.notes
    recurrence_pattern := u.recurrence_pattern.getD t.recurrence_pattern
    recurrence_end_date := (u.recurrence_end_date.map some).getD t.recurrence_end_date
    reminder_datetime := (u.reminder_datetime.map some).getD t.reminder_datetime
    pomodoro_target := (u.pomodoro_target.map some).getD t.pomodoro_target }

/-- update_todo's relationship rewiring: each id list, when present and not
None, is resolved against its table (unknown ids silently dropped) and
replaces the todo's links. -/
def applyRels (db : DB) (u : TodoUpdate) (t : Todo) : Todo :=
  let t1 :=
    match u.tag_ids with
    | some (some ids) => { t with tag_ids := (db.tags.filter (fun tg => ids.contains tg.id)).map Tag.id }
    | _ => t
  let t2 :=
    match u.assignee_ids with
    | some (some ids) => { t1 with assignee_ids := (db.users.filter (fun us => ids.contains us.id)).map User.id }
    | _ => t1
  match u.dependency_ids with
  | some (some ids) => { t2 with dependency_ids := (db.todos.filter (fun dt => ids.contains dt.id)).map Todo.id }
  | _ => t2

/-- The completed_at stamping step of update_todo: only when the request set
status to completed and the (post-setattr) completed_at is still NULL. -/
def applyStamp (u : TodoUpdate) (now : Int) (t : Todo) : Todo :=
  if u.status == some .completed && t.completed_at == Option.none then
    { t with completed_at := some now }
  else t

/-- The whole per-row effect of update_todo. -/
def updStep (db : DB) (u : TodoUpdate) (now : Int) (t : Todo) : Todo :=
  applyStamp u now (applyRels db u (applyScalar u t))

/-- crud.update_todo: returns the new store and the updated row, or the
unchanged store and `none` when the id is absent.  Logs one "updated"
activity entry only when the scalar diff is non-empty. -/
def update_todo (db : DB) (todo_id : Nat) (u : TodoUpdate)
    (user_id : Option Nat) (now : Int) : DB × Option Todo :=
  match findTodo db todo_id with
  | Option.none => (db, Option.none)
  | some t =>
      let db1 := mapTodo db todo_id (updStep db u now)
      let changes := changesOf u t
      let db2 := if changes ≠ [] then log_activity db1 todo_id user_id "updated" (.changes changes) else db1
      (db2, findTodo db1 todo_id)

/-! ### Mutation layer: bulk update, timers, pomodoro -/

/-- The update payloads the bulk endpoints feed to bulk_update_todos
(status for bulk/complete, is_archived for bulk/archive, category_id for
bulk/move, and status/priority via bulk/update). -/
structure BulkPayload where
  status : Option StatusLevel := Option.none
  priority : Option PriorityLevel := Option.none
  is_archived : Option Bool := Option.none
  category_id : Option Nat := Option.none
deriving DecidableEq, Repr

/-- The storage-level bulk UPDATE: set each present column.  Note: no
completed_at stamping happens here. -/
def applyBulk (p : BulkPayload) (t : Todo) : Todo :=
  { t with
    status := p.status.getD t.status
    priority := (p.priority.map some).getD t.priority
    is_archived := p.is_archived.getD t.is_archived
    category_id := (p.category_id.map some).getD t.category_id }

/-- crud.bulk_update_todos: one UPDATE over `id IN todo_ids`, then one
"bulk_updated" activity entry per requested id; returns `len(todo_ids)`. -/
def bulk_update_todos (db : DB) (todo_ids : List Nat) (p : BulkPayload)
    (user_id : Option Nat) : DB × Nat :=
  let db1 := { db with todos := db.todos.map (fun (t : Todo) => if todo_ids.contains t.id then applyBulk p t else t) }
  let entries : List ActivityEntry :=
    todo_ids.map (fun i => ⟨i, user_id, "bulk_updated", .bulkPayload p.status p.priority p.is_archived p.category_id⟩)
  let db2 := { db1 with activity := db1.activity ++ entries }
  (db2, todo_ids.length)

/-- crud.start_timer: stamp timer_started_at and force status in_progress. -/
def start_timer (db : DB) (todo_id : Nat) (now : Int) : DB × Option Todo :=
  match findTodo db todo_id with
  | Option.none => (db, Option.none)
  | some _ =>
      let db1 := mapTodo db todo_id (fun t => { t with timer_started_at := some now, status := .in_progress })
      (db1, findTodo db1 todo_id)

/-- Summed duration of all time entries. -/
def sumDurations (entries : List TimeEntry) : Int :=
  entries.foldl (fun acc e => acc + e.duration) 0

/-- The per-row effect of stop_timer for a row whose timer started at t0. -/
def stopStep (now t0 : Int) (t : Todo) : Todo :=
  let entries := t.time_entries ++ [⟨t0, now, now - t0⟩]
  { t with
    time_entries := entries
    actual_duration := some ((sumDurations entries).fdiv 60)
    timer_started_at := Option.none }

/-- crud.stop_timer: not-found signal when the todo is absent or no timer is
running; otherwise append the time entry, recompute actual_duration as the
floor-minutes of the summed durations, and clear the timer. -/
def stop_timer (db : DB) (todo_id : Nat) (now : Int) : DB × Option Todo :=
  match findTodo db todo_id with
  | Option.none => (db, Option.none)
  | some t =>
      match t.timer_started_at with
      | Option.none => (db, Option.none)
      | some t0 =>
          let db1 := mapTodo db todo_id (fun x => stopStep now (x.timer_started_at.getD t0) x)
          (db1, findTodo db1 todo_id)

/-- crud.complete_pomodoro: increment the counter. -/
def complete_pomodoro (db : DB) (todo_id : Nat) : DB × Option Todo :=
  match findTodo db todo_id with
  | Option.none => (db, Option.none)
  | some _ =>
      let db1 := mapTodo db todo_id (fun t => { t with pomodoro_count := t.pomodoro_count + 1 })
      (db1, findTodo db1 todo_id)

/-! ### Mutation layer: recurring instance -/

/-- Days since 1970-01-01 of a proleptic-Gregorian calendar date (the civil
day-count algorithm); used to name concrete dates in witness statements. -/
def daysFromCivil (y m d : Int) : Int :=
  let y1 : Int := if m ≤ 2 then y - 1 else y
  let era : Int := (if 0 ≤ y1 then y1 else y1 - 399) / 400
  let yoe : Int := y1 - era * 400
  let mp : Int := if 2 < m then m - 3 else m + 9
  let doy : Int := (153 * mp + 2) / 5 + d - 1
  let doe : Int := yoe * 365 + yoe / 4 - yoe / 100 + doy
  era * 146097 + doe - 719468

/-- The fixed timedelta offsets of create_recurring_instance, in seconds
(daily +1 day, weekly +1 week, monthly +30 days, yearly +365 days).  The
`.none` case is unreachable: the caller returns before computing a next due
date when the pattern is none. -/
def recurOffset : RecurrencePattern → Int
  | .daily => 86400
  | .weekly => 7 * 86400
  | .monthly => 30 * 86400
  | .yearly => 365 * 86400
  | .none => 0

/-- Autoincrement primary key for an INSERT. -/
def nextId (db : DB) : Nat :=
  db.todos.foldl (fun acc t => max acc t.id) 0 + 1

/-- The new row built by create_recurring_instance: carried-over fields,
status reset to pending, the computed next due date, the back-reference,
copied tag/assignee links, and column defaults for everything else. -/
def recurInstance (db : DB) (original : Todo) (original_todo_id : Nat)
    (next_due now : Int) : Todo :=
  { id := nextId db
    title := original.title
    description := original.description
    status := .pending
    priority := original.priority
    due_date := some next_due
    category_id := original.category_id
    created_at := now
    completed_at := Option.none
    is_archived := false
    estimated_duration := original.estimated_duration
    actual_duration := Option.none
    notes := original.notes
    parent_id := Option.none
    position := 0
    recurrence_pattern := original.recurrence_pattern
    recurrence_end_date := original.recurrence_end_date
    original_todo_id := some original_todo_id
    is_template := false
    template_name := Option.none
    time_entries := []
    timer_started_at := Option.none
    reminder_datetime := Option.none
    reminder_sent := false
    pomodoro_count := 0
    pomodoro_target := Option.none
    created_by := Option.none
    tag_ids := original.tag_ids
    assignee_ids := original.assignee_ids
    dependency_ids := [] }

/-- crud.create_recurring_instance: no instance when the todo is absent, its
pattern is none, or it has no due date; next due date by fixed offset; no
instance when a recurrence end date exists and the next date exceeds it. -/
def create_recurring_instance (db : DB) (original_todo_id : Nat) (now : Int) :
    DB × Option Todo :=
  match findTodo db original_todo_id with
  | Option.none => (db, Option.none)
  | some original =>
      if original.recurrence_pattern == .none then (db, Option.none)
      else
        match original.due_date with
        | Option.none => (db, Option.none)
        | some d =>
            let next_due := d + recurOffset original.recurrence_pattern
            let blocked :=
              match original.recurrence_end_date with
              | some e => decide (e < next_due)
              | Option.none => false
            if blocked then (db, Option.none)
            else
              let nt := recurInstance db original original_todo_id next_due now
              ({ db with todos := db.todos ++ [nt] }, some nt)

/-! ### Stats layer -/

/-- Calendar day of a timestamp (`datetime.date()` on a UTC datetime). -/
def dayOf (t : Int) : Int :=
  Int.fdiv t 86400

/-- Python's round-half-to-even of a rational to an integer. -/
def roundHalfEven (q : ℚ) : Int :=
  let f : Int := ⌊q⌋
  let r : ℚ := q - f
  if r < 1/2 then f
  else if 1/2 < r then f + 1
  else if f % 2 = 0 then f else f + 1

/-- Python `round(x, 2)` on an exact rational. -/
def round2 (q : ℚ) : ℚ :=
  (roundHalfEven (q * 100) : ℚ) / 100

/-- The `if user_id:` scoping applied by the stats queries (`0` is falsy in
Python, so user id 0 is treated as no scope). -/
def scopeTodos (db : DB) (user_id : Option Nat) : List Todo :=
  match user_id with
  | some u => if u == 0 then db.todos else db.todos.filter (fun t => t.created_by == some u)
  | Option.none => db.todos

/-- Descending sort over completed_at used by calculate_streak. -/
def completedDescLe (a b : Todo) : Bool :=
  optIntLe b.completed_at a.completed_at

/-- The walk of calculate_streak over the descending list of completed
todos' calendar days. -/
def streakLoop : List Todo → Int → Nat → Nat
  | [], _, streak => streak
  | t :: rest, current_date, streak =>
      let todo_date := dayOf (t.completed_at.getD 0)
      if todo_date == current_date || todo_date == current_date - (streak : Int) then
        if todo_date == current_date - (streak : Int) then
          streakLoop rest todo_date (streak + 1)
        else
          streakLoop rest current_date streak
      else streak

/-- crud.calculate_streak: completed todos with a completed_at stamp, user
scoped, ordered by completed_at descending, then the backward day walk. -/
def calculate_streak (db : DB) (user_id : Option Nat) (now : Int) : Nat :=
  let base := db.todos.filter (fun t => t.status == StatusLevel.completed && t.completed_at.isSome)
  let inScope :=
    match user_id with
    | some u => if u == 0 then base else base.filter (fun t => t.created_by == some u)
    | Option.none => base
  let completed_todos := sortTodos completedDescLe inScope
  match completed_todos with
  | [] => 0
  | _ => streakLoop completed_todos (dayOf now) 0

/-- The dict returned by crud.get_todo_stats. -/
structure Stats where
  total : Nat
  completed : Nat
  pending : Nat
  in_progress : Nat
  overdue : Nat
  due_today : Nat
  by_priority : List (String × Nat)
  by_category : List (String × Nat)
  by_status : List (String × Nat)
  completion_rate : ℚ
  average_completion_time : Option ℚ
  total_time_tracked : Int
  pomodoros_completed : Int
  streak_days : Nat
deriving DecidableEq, Repr

/-- The `.value` string of a priority member. -/
def priorityValue : PriorityLevel → String
  | .low => "low"
  | .medium => "medium"
  | .high => "high"
  | .urgent => "urgent"

/-- The `.value` string of a status member. -/
def statusValue : StatusLevel → String
  | .pending => "pending"
  | .in_progress => "in_progress"
  | .completed => "completed"
  | .cancelled => "cancelled"

/-- crud.get_todo_stats.  Every aggregate except the average completion time
runs over the user-scoped query; the average runs over a fresh unscoped
query (`db.query`, not `query`), and Python's `if avg_completion` turns both
a missing and a zero average into None. -/
def get_todo_stats (db : DB) (user_id : Option Nat) (now : Int) : Stats :=
  let today_start := dayOf now * 86400
  let inScope := scopeTodos db user_id
  let total := inScope.length
  let completed := (inScope.filter (fun t => t.status == StatusLevel.completed)).length
  let completedAll := db.todos.filter (fun t => t.completed_at.isSome)
  let avg_completion : Option ℚ :=
    match completedAll with
    | [] => Option.none
    | _ =>
        some ((completedAll.foldl (fun acc t => acc + ((t.completed_at.getD 0 - t.created_at : Int) : ℚ)) 0) / completedAll.length)
  { total := total
    completed := completed
    pending := (inScope.filter (fun t => t.status == StatusLevel.pending)).length
    in_progress := (inScope.filter (fun t => t.status == StatusLevel.in_progress)).length
    overdue := (inScope.filter (fun t =>
      (match t.due_date with | some d => decide (d < now) | Option.none => false) &&
      t.status != StatusLevel.completed)).length
    due_today := (inScope.filter (fun t =>
      (match t.due_date with
       | some d => decide (today_start ≤ d) && decide (d < today_start + 86400)
       | Option.none => false) &&
      t.status != StatusLevel.completed)).length
    by_priority := [PriorityLevel.low, .medium, .high, .urgent].map (fun p =>
      (priorityValue p, (inScope.filter (fun t => t.priority == some p)).length))
    by_category := db.categories.map (fun c =>
      (c.name, (inScope.filter (fun t => t.category_id == some c.id)).length))
    by_status := [StatusLevel.pending, .in_progress, .completed, .cancelled].map (fun s =>
      (statusValue s, (inScope.filter (fun t => t.status == s)).length))
    completion_rate := if 0 < total then round2 ((completed : ℚ) / (total : ℚ) * 100) else 0
    average_completion_time :=
      match avg_completion with
      | some a => if a = 0 then Option.none else some (round2 (a / 3600))
      | Option.none => Option.none
    total_time_tracked := (inScope.filter (fun t => t.actual_duration.isSome)).foldl
      (fun acc t => acc + t.actual_duration.getD 0) 0
    pomodoros_completed := inScope.foldl (fun acc t => acc + t.pomodoro_count) 0
    streak_days := calculate_streak db user_id now }

/-! ### Export layer -/

/-- One VEVENT block of the ICS export. -/
structure VEvent where
  uid : String
  dtstamp : Int
  dtstart : Int
  summary : String
  description : Option String
  vstatus : String
deriving DecidableEq, Repr

/-- The VEVENT a due-dated todo contributes to the ICS export. -/
def vevent (now : Int) (t : Todo) (d : Int) : VEvent :=
  { uid := toString t.id ++ "@todoapp.com"
    dtstamp := now
    dtstart := d
    summary := t.title
    description := t.description
    vstatus := if t.status == StatusLevel.completed then "COMPLETED" else "NEEDS-ACTION" }

/-- The todo listing the ICS export iterates over:
`crud.get_todos(db, limit=10000)` with every other argument defaulted. -/
def icsListing (db : DB) : List Todo :=
  get_todos db 0 10000 Option.none Option.none Option.none Option.none Option.none "created_at" "desc" false

/-- routers/todo.export_ics: the for-loop emitting one VEVENT per listed
todo with a due date (the surrounding VCALENDAR envelope is serialization
only and carries no data). -/
def export_ics_events (db : DB) (now : Int) : List VEvent :=
  (icsListing db).foldl
    (fun acc t =>
      match t.due_date with
      | some d => acc ++ [vevent now t d]
      | Option.none => acc) []

/-! ### The mutation-operation alphabet of claim C1 -/

/-- One mutation-layer operation together with the wall-clock instant at
which it runs. -/
inductive MutOp where
  | update (todo_id : Nat) (u : TodoUpdate)
  | bulk (todo_ids : List Nat) (p : BulkPayload)
  | timerStart (todo_id : Nat)
  | timerStop (todo_id : Nat)
  | pomodoro (todo_id : Nat)
deriving DecidableEq, Repr

/-- Run one operation against the store (activity user: anonymous). -/
def applyOp (db : DB) (op : MutOp) (now : Int) : DB :=
  match op with
  | .update i u => (update_todo db i u Option.none now).1
  | .bulk ids p => (bulk_update_todos db ids p Option.none).1
  | .timerStart i => (start_timer db i now).1
  | .timerStop i => (stop_timer db i now).1
  | .pomodoro i => (complete_pomodoro db i).1

/-- Run a timed operation sequence. -/
def runOps (db : DB) (ops : List (MutOp × Int)) : DB :=
  ops.foldl (fun d p => applyOp d p.1 p.2) db

/-- Is the row currently in status completed? -/
def statusCompletedB (db : DB) (todo_id : Nat) : Bool :=
  match findTodo db todo_id with
  | some t => t.status == StatusLevel.completed
  | Option.none => false

/-- The row's completed_at stamp (None when the row is absent). -/
def completedAt (db : DB) (todo_id : Nat) : Option Int :=
  (findTodo db todo_id).bind Todo.completed_at

/-- Has the row's status been completed in some state of the run (the
initial state, any intermediate state, or the final state)? -/
def everCompleted (db : DB) (todo_id : Nat) : List (MutOp × Int) → Bool
  | [] => statusCompletedB db todo_id
  | p :: rest => statusCompletedB db todo_id || everCompleted (applyOp db p.1 p.2) todo_id rest

/-- Not a bulk operation. -/
def NonBulk : MutOp → Prop
  | .bulk _ _ => False
  | _ => True

/-- A store in which no row has been completed yet. -/
def Fresh (db : DB) : Prop :=
  ∀ t ∈ db.todos, t.completed_at = Option.none ∧ t.status ≠ StatusLevel.completed

/-! ### Concrete rows and stores for witnesses and counterexamples -/

/-- A row with every column at its models.py default. -/
def baseTodo (i : Nat) (title : String) (created : Int) : Todo :=
  { id := i
    title := title
    description := Option.none
    status := .pending
    priority := some .medium
    due_date := Option.none
    category_id := Option.none
    created_at := created
    completed_at := Option.none
    is_archived := false
    estimated_duration := Option.none
    actual_duration := Option.none
    notes := Option.none
    parent_id := Option.none
    position := 0
    recurrence_pattern := .none
    recurrence_end_date := Option.none
    original_todo_id := Option.none
    is_template := false
    template_name := Option.none
    time_entries := []
    timer_started_at := Option.none
    reminder_datetime := Option.none
    reminder_sent := false
    pomodoro_count := 0
    pomodoro_target := Option.none
    created_by := Option.none
    tag_ids := []
    assignee_ids := []
    dependency_ids := [] }

/-- A store holding only the given todos. -/
def mkDB (ts : List Todo) : DB :=
  { todos := ts, categories := [], tags := [], users := [], activity := [] }

/-- Completions on calendar days {today, today-1, today-2, today-4} for
today = epoch day 20000: the streak example of the specification. -/
def streakDB : DB :=
  mkDB
    [ { baseTodo 1 "a" 0 with status := .completed, completed_at := some (20000 * 86400 + 10) },
      { baseTodo 2 "b" 0 with status := .completed, completed_at := some (19999 * 86400 + 10) },
      { baseTodo 3 "c" 0 with status := .completed, completed_at := some (19998 * 86400 + 10) },
      { baseTodo 4 "d" 0 with status := .completed, completed_at := some (19996 * 86400 + 10) } ]

/-- Completions on three consecutive days {today, today-1, today-2}. -/
def streakDB3 : DB :=
  mkDB
    [ { baseTodo 1 "a" 0 with status := .completed, completed_at := some (20000 * 86400 + 10) },
      { baseTodo 2 "b" 0 with status := .completed, completed_at := some (19999 * 86400 + 10) },
      { baseTodo 3 "c" 0 with status := .completed, completed_at := some (19998 * 86400 + 10) } ]

/-- A row with a running timer started at second 1000. -/
def timerTodo : Todo :=
  { baseTodo 1 "t" 0 with timer_started_at := some 1000 }

/-- Store for the C6 witness. -/
def timerDB : DB :=
  mkDB [timerTodo]

/-- A monthly-recurring row due 2024-01-31. -/
def recurTodo : Todo :=
  { baseTodo 1 "r" 0 with
    due_date := some (daysFromCivil 2024 1 31 * 86400)
    recurrence_pattern := .monthly }

/-- Store for the C5 witness. -/
def recurDB : DB :=
  mkDB [recurTodo]

/-- No scalar key of the update request is present (the only present keys,
if any, are the three relationship id lists). -/
def ScalarsAbsent (u : TodoUpdate) : Prop :=
  u.title = Option.none ∧ u.description = Option.none ∧ u.status = Option.none ∧
  u.priority = Option.none ∧ u.due_date = Option.none ∧ u.category_id = Option.none ∧
  u.is_archived = Option.none ∧ u.estimated_duration = Option.none ∧
  u.actual_duration = Option.none ∧ u.notes = Option.none ∧
  u.recurrence_pattern = Option.none ∧ u.recurrence_end_date = Option.none ∧
  u.reminder_datetime = Option.none ∧ u.pomodoro_target = Option.none

/-- A row in completed status carries a completion stamp (the per-row state
invariant preserved by the non-bulk mutation operations). -/
def KTodo (t : Todo) : Prop :=
  t.status = StatusLevel.completed → t.completed_at ≠ Option.none

/-- The average the stats endpoint actually reports: the mean over ALL rows
with a completion stamp (no user scope), in hours, rounded to 2 decimals,
with both an empty pool and a zero mean reported as None. -/
def avgCompletionAll (db : DB) : Option ℚ :=
  let pool := db.todos.filter (fun t => t.completed_at.isSome)
  match pool with
  | [] => Option.none
  | _ =>
      let m : ℚ :=
        (pool.foldl (fun (acc : ℚ) (t : Todo) => acc + ((t.completed_at.getD 0 - t.created_at : Int) : ℚ)) 0) / pool.length
      if m = 0 then Option.none else some (round2 (m / 3600))

/-- Modelled from the claim's words, for refutation: the mean of
(completed_at − created_at) over exactly the todos WITHIN THE USER SCOPE
that have a completed timestamp, converted from seconds to hours, null when
no such todos exist in that scope. -/
def avgCompletionSpecScoped (db : DB) (user_id : Option Nat) : Option ℚ :=
  let inScope :=
    match user_id with
    | some u => db.todos.filter (fun (t : Todo) => t.created_by == some u)
    | Option.none => db.todos
  let pool := inScope.filter (fun (t : Todo) => t.completed_at.isSome)
  match pool with
  | [] => Option.none
  | _ =>
      some ((pool.foldl (fun (acc : ℚ) (t : Todo) => acc + ((t.completed_at.getD 0 - t.created_at : Int) : ℚ)) 0) / pool.length / 3600)

/-- Store for the C10 witness: one row, one tag in the tags table. -/
def relsDB : DB :=
  { mkDB [baseTodo 1 "w" 0] with tags := [⟨5, "work"⟩] }

/-- An update request whose only present key is tag_ids. -/
def relsUpdate : TodoUpdate :=
  { tag_ids := some (some [5]) }

/-- Store for the C3 counterexample: a single pending row. -/
def pendingDB : DB :=
  mkDB [baseTodo 1 "p" 0]

/-- Store for the C4 counterexample: user 1 completed in 3600 s, user 2 in
7200 s. -/
def statsDB : DB :=
  mkDB
    [ { baseTodo 1 "a" 0 with
          created_by := some 1
          status := .completed
          completed_at := some 3600 },
      { baseTodo 2 "b" 0 with
          created_by := some 2
          status := .completed
          completed_at := some 7200 } ]

/-- Store for the C1 witness and counterexample: one fresh pending row. -/
def freshDB : DB :=
  mkDB [baseTodo 1 "f" 0]

/-- The payload of the bulk/complete endpoint. -/
def completePayload : BulkPayload :=
  { status := some .completed }

/-- A single-todo update request setting status to completed. -/
def completeUpdate : TodoUpdate :=
  { status := some .completed }

/-! ### Helper lemmas about keyed lookup and keyed update -/

theorem find?_map_if (l : List Todo) (i j : Nat) (f : Todo → Todo)
    (hf : ∀ t, (f t).id = t.id) :
    (l.map (fun t => if t.id == j then f t else t)).find? (fun t => t.id == i) =
      (l.find? (fun t => t.id == i)).map (fun t => if t.id == j then f t else t) := by
  induction l with
  | nil => rfl
  | cons a l ih =>
      have hid : ((if a.id == j then f a else a).id == i) = (a.id == i) := by
        by_cases h : a.id == j <;> simp [h, hf]
      simp only [List.map_cons]
      cases h : (a.id == i : Bool) with
      | false =>
          rw [List.find?_cons_of_neg _ (by rw [hid, h]; exact Bool.false_ne_true),
              List.find?_cons_of_neg _ (by rw [h]; exact Bool.false_ne_true)]
          exact ih
      | true =>
          rw [List.find?_cons_of_pos _ (by rw [hid, h]),
              List.find?_cons_of_pos _ (by rw [h])]
          rfl

theorem findTodo_mapTodo (db : DB) (i j : Nat) (f : Todo → Todo)
    (hf : ∀ t, (f t).id = t.id) :
    findTodo (mapTodo db j f) i =
      (findTodo db i).map (fun t => if t.id == j then f t else t) :=
  find?_map_if db.todos i j f hf

theorem findTodo_id {db : DB} {i : Nat} {t : Todo} (h : findTodo db i = some t) :
    (t.id == i) = true := by
  unfold findTodo at h
  exact @List.find?_some Todo (fun t => t.id == i) t db.todos h

theorem findTodo_mem {db : DB} {i : Nat} {t : Todo} (h : findTodo db i = some t) :
    t ∈ db.todos := by
  unfold findTodo at h
  exact @List.mem_of_find?_eq_some Todo (fun t => t.id == i) t db.todos h

/-! ## Claim C2 -/

/-- C2 (code_bug evidence): on the specification's own example — at least
one completion on each of the calendar days {today, today-1, today-2,
today-4} and none on today-3 — the implemented walk returns 2, not the 3
the claim requires; even on three consecutive completion days
{today, today-1, today-2} it returns 2, contradicting the source's own
"consecutive days with completed tasks" description.  After the walk
re-anchors `current_date` on a matched day it keeps subtracting the full
accumulated streak instead of one day, so the third day never matches. -/
theorem calculate_streak_gap_example :
    calculate_streak streakDB Option.none (20000 * 86400 + 500) = 2 ∧
    calculate_streak streakDB3 Option.none (20000 * 86400 + 500) = 2 := by
  constructor <;> rfl

/-! ## Claim C7 -/

/-- C7: bulk update runs to completion no matter which requested ids exist:
it returns the count of requested ids (`len(todo_ids)`, independent of how
many rows matched) and appends exactly one "bulk_updated" activity entry per
requested id — absent ids included — carrying the update payload. -/
theorem bulk_update_counts_requested_ids (db : DB) (ids : List Nat)
    (p : BulkPayload) (uid : Option Nat) :
    (bulk_update_todos db ids p uid).2 = ids.length ∧
    (bulk_update_todos db ids p uid).1.activity =
      db.activity ++ ids.map (fun i =>
        { todo_id := i, user_id := uid, action := "bulk_updated",
          details := .bulkPayload p.status p.priority p.is_archived p.category_id }) := by
  exact ⟨rfl, rfl⟩

/-! ## Claim C6 -/

/-- C6: stopping an active timer started at t0 appends exactly one
`{start, end, duration}` record with start t0, end now and duration
now − t0, replaces actual_duration with the floor of the summed durations
of all entries divided by 60, and clears timer_started_at, touching no other
row; stopping with no running timer (or an absent todo) returns the
not-found signal and leaves the store unchanged. -/
theorem stop_timer_spec (db : DB) (i : Nat) (now : Int) :
    ((∀ t, findTodo db i = some t → t.timer_started_at = Option.none) →
      stop_timer db i now = (db, Option.none)) ∧
    (∀ t t0, findTodo db i = some t → t.timer_started_at = some t0 →
      ∃ t1, stop_timer db i now =
          (mapTodo db i (fun x => stopStep now (x.timer_started_at.getD t0) x), some t1) ∧
        t1 = stopStep now t0 t ∧
        t1.time_entries = t.time_entries ++ [⟨t0, now, now - t0⟩] ∧
        t1.actual_duration =
          some ((sumDurations (t.time_entries ++ [⟨t0, now, now - t0⟩])).fdiv 60) ∧
        t1.timer_started_at = Option.none) := by
  constructor
  · intro hnone
    cases h : findTodo db i with
    | none => simp only [stop_timer, h]
    | some t => simp only [stop_timer, h, hnone t h]
  · intro t t0 hf h0
    simp only [stop_timer, hf, h0]
    have hfind : findTodo (mapTodo db i (fun x => stopStep now (x.timer_started_at.getD t0) x)) i =
        some (stopStep now t0 t) := by
      rw [findTodo_mapTodo db i i
            (fun x => stopStep now (x.timer_started_at.getD t0) x) (fun x => rfl), hf]
      have hid : t.id = i := by simpa using findTodo_id hf
      simp [hid, h0]
    refine ⟨stopStep now t0 t, ?_, rfl, rfl, rfl, rfl⟩
    rw [hfind]

/-- C6 witness: start at 1000, stop at 1090 — one entry of duration 90 and
actual_duration 90 // 60 = 1. -/
theorem stop_timer_spec_witness :
    ∃ t1, (stop_timer timerDB 1 1090).2 = some t1 ∧
      t1.time_entries = [⟨1000, 1090, 90⟩] ∧
      t1.actual_duration = some 1 ∧
      t1.timer_started_at = Option.none := by
  obtain ⟨t1, heq, ht1, hte, had, hts⟩ :=
    (stop_timer_spec timerDB 1 1090).2 timerTodo 1000 rfl rfl
  refine ⟨t1, ?_, ?_, ?_, hts⟩
  · rw [heq]
  · rw [hte]; rfl
  · rw [had]; rfl

/-! ## Claim C5 -/

/-- C5: for a recurring todo, the next instance's due date is the original
due date plus the fixed pattern offset (daily +1 day, weekly +7 days,
monthly +30 days, yearly +365 days); no instance is created when a
recurrence end date exists and the next date exceeds it, when the original
has no due date, or when its pattern is none.  The created instance resets
status to pending and back-references the original. -/
theorem create_recurring_spec (db : DB) (i : Nat) (now : Int) (t : Todo)
    (hf : findTodo db i = some t) :
    (t.recurrence_pattern = .none → create_recurring_instance db i now = (db, Option.none)) ∧
    (t.due_date = Option.none → create_recurring_instance db i now = (db, Option.none)) ∧
    (∀ d, t.due_date = some d → t.recurrence_pattern ≠ .none →
      (∀ e, t.recurrence_end_date = some e → e < d + recurOffset t.recurrence_pattern →
        create_recurring_instance db i now = (db, Option.none)) ∧
      ((∀ e, t.recurrence_end_date = some e → d + recurOffset t.recurrence_pattern ≤ e) →
        ∃ nt, create_recurring_instance db i now =
            ({ db with todos := db.todos ++ [nt] }, some nt) ∧
          nt = recurInstance db t i (d + recurOffset t.recurrence_pattern) now ∧
          nt.due_date = some (d + recurOffset t.recurrence_pattern) ∧
          nt.status = .pending ∧ nt.title = t.title ∧
          nt.original_todo_id = some i ∧
          nt.recurrence_pattern = t.recurrence_pattern)) := by
  refine ⟨?_, ?_, ?_⟩
  · intro hp
    simp [create_recurring_instance, hf, hp]
  · intro hd
    simp [create_recurring_instance, hf, hd]
  · intro d hd hp
    have hpb : (t.recurrence_pattern == RecurrencePattern.none) = false := by
      cases hpat : t.recurrence_pattern <;> simp_all
    constructor
    · intro e he hlt
      simp [create_recurring_instance, hf, hpb, hd, he, hlt]
    · intro hok
      cases hre : t.recurrence_end_date with
      | none =>
          refine ⟨_, ?_, rfl, rfl, rfl, rfl, rfl, rfl⟩
          simp [create_recurring_instance, hf, hpb, hd, hre]
      | some e =>
          refine ⟨_, ?_, rfl, rfl, rfl, rfl, rfl, rfl⟩
          simp [create_recurring_instance, hf, hpb, hd, hre, not_lt.mpr (hok e hre)]

/-- C5 witness: original due 2024-01-31, pattern monthly — the instance is
created and its next due date is 2024-03-01 (the 30-day fixed offset, not a
calendar month). -/
theorem create_recurring_spec_witness :
    ∃ nt, create_recurring_instance recurDB 1 0 =
        ({ recurDB with todos := recurDB.todos ++ [nt] }, some nt) ∧
      nt.due_date = some (daysFromCivil 2024 3 1 * 86400) ∧
      nt.status = .pending := by
  obtain ⟨h1, h2, h3⟩ := create_recurring_spec recurDB 1 0 recurTodo rfl
  obtain ⟨hblock, hmk⟩ := h3 (daysFromCivil 2024 1 31 * 86400) rfl (by decide)
  obtain ⟨nt, heq, hdef, hdue, hst, _, _, _⟩ :=
    hmk (fun e he => by simp [recurTodo, baseTodo] at he)
  refine ⟨nt, heq, ?_, hst⟩
  rw [hdue]
  decide

/-! ## Claim C10 -/

/-- C10: an update request whose only present keys are the relationship id
lists produces an empty scalar diff, appends no activity entry at all (in
particular no "updated" entry), and rewrites the store purely through the
relationship rewiring step. -/
theorem update_rels_only_no_log (db : DB) (i : Nat) (u : TodoUpdate)
    (uid : Option Nat) (now : Int) (t : Todo)
    (hf : findTodo db i = some t) (hs : ScalarsAbsent u) :
    changesOf u t = [] ∧
    (update_todo db i u uid now).1.activity = db.activity ∧
    (update_todo db i u uid now).1.todos =
      db.todos.map (fun x => if x.id == i then applyRels db u x else x) := by
  obtain ⟨h1, h2, h3, h4, h5, h6, h7, h8, h9, h10, h11, h12, h13, h14⟩ := hs
  have hch : changesOf u t = [] := by
    simp [changesOf, h1, h2, h3, h4, h5, h6, h7, h8, h9, h10, h11, h12, h13, h14]
  have hsc : ∀ x, applyScalar u x = x := by
    intro x
    simp [applyScalar, h1, h2, h3, h4, h5, h6, h7, h8, h9, h10, h11, h12, h13, h14]
  have hstep : ∀ x, updStep db u now x = applyRels db u x := by
    intro x
    unfold updStep applyStamp
    rw [h3, hsc x]
    simp
  have hfun : (fun x : Todo => if x.id == i then updStep db u now x else x) =
      (fun x : Todo => if x.id == i then applyRels db u x else x) := by
    funext x
    rw [hstep x]
  refine ⟨hch, ?_, ?_⟩
  · simp [update_todo, hf, hch, mapTodo]
  · simp only [update_todo, hf, hch, mapTodo]
    simp only [ne_eq, not_true_eq_false, if_neg, ite_false]
    rw [hfun]

/-- C10 witness: a request presenting only tag_ids rewires tags, produces an
empty diff, and appends no activity entry. -/
theorem update_rels_only_no_log_witness :
    changesOf relsUpdate (baseTodo 1 "w" 0) = [] ∧
    (update_todo relsDB 1 relsUpdate Option.none 0).1.activity = relsDB.activity ∧
    (update_todo relsDB 1 relsUpdate Option.none 0).1.todos =
      relsDB.todos.map (fun x => if x.id == 1 then applyRels relsDB relsUpdate x else x) :=
  update_rels_only_no_log relsDB 1 relsUpdate Option.none 0 (baseTodo 1 "w" 0) rfl
    ⟨rfl, rfl, rfl, rfl, rfl, rfl, rfl, rfl, rfl, rfl, rfl, rfl, rfl, rfl⟩

/-! ## Claim C9 -/

theorem vevents_foldl (now : Int) (l : List Todo) (acc : List VEvent) :
    l.foldl
      (fun acc t =>
        match t.due_date with
        | some d => acc ++ [vevent now t d]
        | Option.none => acc) acc =
    acc ++ (l.filter (fun t => t.due_date.isSome)).map
      (fun t => vevent now t (t.due_date.getD 0)) := by
  induction l generalizing acc with
  | nil => simp
  | cons a l ih =>
      cases h : a.due_date with
      | none => simp [h, ih, List.filter_cons]
      | some d => simp [h, ih, List.filter_cons]

/-- C9: the ICS export contains exactly one VEVENT per listed todo with a
non-null due date — with UID "<id>@todoapp.com", DTSTAMP = now, DTSTART =
the due date, SUMMARY = title, the optional DESCRIPTION, and STATUS
COMPLETED exactly when the todo's status is completed and NEEDS-ACTION
otherwise — and no VEVENT for a todo without a due date. -/
theorem export_ics_one_vevent_per_due_todo (db : DB) (now : Int) :
    export_ics_events db now =
      ((icsListing db).filter (fun t => t.due_date.isSome)).map
        (fun t =>
          { uid := toString t.id ++ "@todoapp.com"
            dtstamp := now
            dtstart := t.due_date.getD 0
            summary := t.title
            description := t.description
            vstatus := if t.status == StatusLevel.completed then "COMPLETED"
              else "NEEDS-ACTION" }) ∧
    (export_ics_events db now).length =
      ((icsListing db).filter (fun t => t.due_date.isSome)).length := by
  have heq : export_ics_events db now =
      ((icsListing db).filter (fun t => t.due_date.isSome)).map
        (fun t => vevent now t (t.due_date.getD 0)) := by
    simpa [export_ics_events] using vevents_foldl now (icsListing db) []
  refine ⟨?_, ?_⟩
  · rw [heq]
    rfl
  · rw [heq]
    simp

/-! ## Claim C3 -/

theorem filter_swap (p q : Todo → Bool) (l : List Todo) :
    (l.filter q).filter p = (l.filter p).filter q := by
  rw [List.filter_filter, List.filter_filter]
  exact List.filter_congr (fun x _ => Bool.and_comm _ _)

theorem filtPriority_filter (ps : Option String) (q : Todo → Bool) (l : List Todo) :
    filtPriority ps (l.filter q) = (filtPriority ps l).filter q := by
  unfold filtPriority
  cases ps with
  | none => rfl
  | some p =>
      by_cases hp : p.isEmpty
      · simp [hp]
      · simp only [hp, Bool.false_eq_true, if_false]
        cases parsePriority (toUpperStr p) with
        | none => rfl
        | some pe => exact filter_swap _ q l


theorem filtCategory_filter (db : DB) (cat : Option String) (q : Todo → Bool)
    (l : List Todo) :
    filtCategory db cat (l.filter q) = (filtCategory db cat l).filter q := by
  unfold filtCategory
  cases cat with
  | none => rfl
  | some c =>
      by_cases hc : c.isEmpty
      · simp [hc]
      · simp only [hc, Bool.false_eq_true, if_false]
        exact filter_swap _ q l

theorem filtStatus_parse (s : String) (σ : StatusLevel) (l : List Todo)
    (hp : parseStatus (toUpperStr s) = some σ) (hne : s.isEmpty = false) :
    filtStatus (some s) l = l.filter (fun t => t.status == σ) := by
  simp [filtStatus, hne, hp]

/-- C3 amended: the completed boolean and an explicit status filter are
conjoined, not prioritized — with both present the result is the usual
result for the explicit status filter when the completed-derived status
(true ↦ completed, false ↦ pending) agrees with it, and empty when the two
disagree. -/
theorem get_todos_conjoins_completed_and_status
    (db : DB) (skip limit : Nat) (search : Option String) (c : Bool)
    (ps cat : Option String) (s : String) (σ : StatusLevel) (sb so : String)
    (ia : Bool) (hp : parseStatus (toUpperStr s) = some σ) (hne : s.isEmpty = false) :
    get_todos db skip limit search (some c) ps cat (some s) sb so ia =
      (if completedSugar c = σ then
        get_todos db skip limit search Option.none ps cat (some s) sb so ia
      else []) := by
  have hcore : queryChain db search (some c) ps cat (some s) ia =
      (if completedSugar c = σ then
        queryChain db search Option.none ps cat (some s) ia
      else []) := by
    unfold queryChain
    rw [filtStatus_parse s σ _ hp hne, filtStatus_parse s σ _ hp hne]
    rw [show filtCompleted (some c)
          (filtSearch search (filtArchived ia
            (db.todos.filter (fun t => t.parent_id == Option.none)))) =
        (filtSearch search (filtArchived ia
            (db.todos.filter (fun t => t.parent_id == Option.none)))).filter
          (fun t => t.status == completedSugar c) from rfl]
    rw [filtPriority_filter, filtCategory_filter, List.filter_filter]
    by_cases h : completedSugar c = σ
    · rw [if_pos h]
      exact List.filter_congr (fun x _ => by rw [h, Bool.and_self])
    · rw [if_neg h]
      rw [List.filter_eq_nil_iff]
      intro a _
      simp only [Bool.and_eq_true, beq_iff_eq, not_and]
      intro hσ hsg
      exact h (hsg ▸ hσ ▸ rfl)
  by_cases h : completedSugar c = σ
  · simp only [get_todos, hcore, if_pos h]
  · simp only [get_todos, hcore, if_neg h]
    simp [sortTodos]

/-- C3 counterexample: one pending todo; listing with completed=true and
status="pending" returns nothing, while the claim ("the result is exactly
the todos matching the explicit status filter, regardless of the completed
boolean") demands that the pending todo be returned — as the status-only
listing shows. -/
theorem get_todos_status_precedence_counterexample :
    get_todos pendingDB 0 100 Option.none (some true) Option.none Option.none
      (some "pending") "created_at" "desc" false = [] ∧
    get_todos pendingDB 0 100 Option.none Option.none Option.none Option.none
      (some "pending") "created_at" "desc" false = [baseTodo 1 "p" 0] := by
  constructor <;> rfl

/-- C3 witness: the amended theorem applied to the concrete conflicting
request — the conjoined filters return nothing. -/
theorem get_todos_conjoins_witness :
    get_todos pendingDB 0 100 Option.none (some true) Option.none Option.none
      (some "pending") "created_at" "desc" false = [] := by
  have h := get_todos_conjoins_completed_and_status pendingDB 0 100 Option.none true
    Option.none Option.none "pending" StatusLevel.pending "created_at" "desc" false rfl rfl
  rw [if_neg (by decide)] at h
  exact h

/-! ## Claim C4 -/

theorem stats_avg_eq_all (db : DB) (uid : Option Nat) (now : Int) :
    (get_todo_stats db uid now).average_completion_time = avgCompletionAll db := by
  unfold get_todo_stats avgCompletionAll
  cases h : db.todos.filter (fun t => t.completed_at.isSome) with
  | nil => simp [h]
  | cons a l => simp [h]

/-- C4 amended: the reported average completion time is computed over ALL
todos with a completed timestamp, ignoring the requested user scope: it is
the mean of (completed_at − created_at) in seconds over that unscoped pool,
converted to hours and rounded to two decimals, and is null when the pool is
empty or when the mean is exactly zero. -/
theorem stats_average_completion_unscoped (db : DB) (uid : Option Nat) (now : Int) :
    (get_todo_stats db uid now).average_completion_time = avgCompletionAll db :=
  stats_avg_eq_all db uid now

/-- C4 counterexample: user 1 completed one todo in 3600 s and user 2 one in
7200 s.  Statistics scoped to user 1 report an average of 1.5 h (the global
mean), while the claim's scoped mean is 1 h. -/
theorem stats_average_scope_counterexample :
    (get_todo_stats statsDB (some 1) 10000).average_completion_time = some (3/2) ∧
    avgCompletionSpecScoped statsDB (some 1) = some 1 ∧
    (get_todo_stats statsDB (some 1) 10000).average_completion_time ≠
      avgCompletionSpecScoped statsDB (some 1) := by
  have h1 : (get_todo_stats statsDB (some 1) 10000).average_completion_time = some (3/2) := by
    rw [stats_avg_eq_all]
    simp only [avgCompletionAll, statsDB, mkDB, baseTodo]
    norm_num [round2, roundHalfEven]
  have h2 : avgCompletionSpecScoped statsDB (some 1) = some 1 := by
    simp only [avgCompletionSpecScoped, statsDB, mkDB, baseTodo]
    norm_num
  refine ⟨h1, h2, ?_⟩
  rw [h1, h2]
  norm_num

/-! ## Claim C8 -/

theorem mem_insertSorted {le : Todo → Todo → Bool} {a x : Todo} {l : List Todo} :
    x ∈ insertSorted le a l ↔ x = a ∨ x ∈ l := by
  induction l with
  | nil => simp [insertSorted]
  | cons b bs ih =>
      simp only [insertSorted]
      cases h : le a b
      · simp only [Bool.false_eq_true, if_false, List.mem_cons, ih]
        tauto
      · simp [List.mem_cons]

theorem pairwise_insertSorted (le : Todo → Todo → Bool)
    (htot : ∀ a b, le a b = true ∨ le b a = true)
    (htrans : ∀ a b c, le a b = true → le b c = true → le a c = true)
    (a : Todo) (l : List Todo) (h : l.Pairwise (fun x y => le x y = true)) :
    (insertSorted le a l).Pairwise (fun x y => le x y = true) := by
  induction l with
  | nil => simp [insertSorted]
  | cons b bs ih =>
      rcases List.pairwise_cons.mp h with ⟨hb, hbs⟩
      simp only [insertSorted]
      cases hab : le a b
      · simp only [Bool.false_eq_true, if_false]
        refine List.pairwise_cons.mpr ⟨?_, ih hbs⟩
        intro x hx
        rcases mem_insertSorted.mp hx with hxa | hx
        · subst hxa
          rcases htot x b with h1 | h1
          · rw [hab] at h1
            exact absurd h1 (by simp)
          · exact h1
        · exact hb x hx
      · simp only [if_true]
        refine List.pairwise_cons.mpr ⟨?_, h⟩
        intro x hx
        rcases List.mem_cons.mp hx with rfl | hx
        · exact hab
        · exact htrans a b x hab (hb x hx)

theorem pairwise_sortTodos (le : Todo → Todo → Bool)
    (htot : ∀ a b, le a b = true ∨ le b a = true)
    (htrans : ∀ a b c, le a b = true → le b c = true → le a c = true)
    (l : List Todo) :
    (sortTodos le l).Pairwise (fun x y => le x y = true) := by
  induction l with
  | nil => simp [sortTodos]
  | cons a as ih => exact pairwise_insertSorted le htot htrans a (sortTodos le as) ih

theorem todoLe_priority (so : String) (a b : Todo) :
    (todoLe "priority" so a b = true) ↔
      (if so = "asc" then priorityRank a.priority ≤ priorityRank b.priority
       else priorityRank b.priority ≤ priorityRank a.priority) := by
  unfold todoLe ascLe
  by_cases h : so = "asc" <;> simp [h]

/-- C8: a listing sorted by priority is ordered by the explicit rank
urgent(1) < high(2) < medium(3) < low(4) < unrecognized(5) — and in reverse
when the direction is desc — for every store and hence regardless of
insertion order (rank order, not the lexical order of the priority names). -/
theorem get_todos_priority_rank_sorted (db : DB) (skip limit : Nat)
    (search : Option String) (completed : Option Bool)
    (priority category status : Option String) (so : String) (ia : Bool) :
    List.Sorted
      (fun a b : Todo =>
        if so = "asc" then priorityRank a.priority ≤ priorityRank b.priority
        else priorityRank b.priority ≤ priorityRank a.priority)
      (get_todos db skip limit search completed priority category status "priority" so ia) := by
  have htot : ∀ a b : Todo, todoLe "priority" so a b = true ∨ todoLe "priority" so b a = true := by
    intro a b
    rw [todoLe_priority, todoLe_priority]
    split_ifs <;> exact Nat.le_total _ _
  have htrans : ∀ a b c : Todo, todoLe "priority" so a b = true →
      todoLe "priority" so b c = true → todoLe "priority" so a c = true := by
    intro a b c h1 h2
    rw [todoLe_priority] at h1 h2 ⊢
    split_ifs at h1 h2 ⊢ with h
    · exact le_trans h1 h2
    · exact le_trans h2 h1
  have hp := pairwise_sortTodos (todoLe "priority" so) htot htrans
    (queryChain db search completed priority category status ia)
  have hp2 := hp.imp (fun {x y} h => (todoLe_priority so x y).mp h)
  unfold get_todos
  exact List.Pairwise.sublist ((List.take_sublist _ _).trans (List.drop_sublist _ _)) hp2


/-! ## Claim C1 -/

theorem applyScalar_id (u : TodoUpdate) (t : Todo) : (applyScalar u t).id = t.id := rfl

theorem applyScalar_completed_at (u : TodoUpdate) (t : Todo) :
    (applyScalar u t).completed_at = t.completed_at := rfl

theorem applyScalar_status (u : TodoUpdate) (t : Todo) :
    (applyScalar u t).status = u.status.getD t.status := rfl

theorem applyRels_id (db : DB) (u : TodoUpdate) (t : Todo) :
    (applyRels db u t).id = t.id := by
  unfold applyRels
  rcases u.tag_ids with _ | ⟨_ | ids1⟩ <;>
    rcases u.assignee_ids with _ | ⟨_ | ids2⟩ <;>
      rcases u.dependency_ids with _ | ⟨_ | ids3⟩ <;> rfl

theorem applyRels_completed_at (db : DB) (u : TodoUpdate) (t : Todo) :
    (applyRels db u t).completed_at = t.completed_at := by
  unfold applyRels
  rcases u.tag_ids with _ | ⟨_ | ids1⟩ <;>
    rcases u.assignee_ids with _ | ⟨_ | ids2⟩ <;>
      rcases u.dependency_ids with _ | ⟨_ | ids3⟩ <;> rfl

theorem applyRels_status (db : DB) (u : TodoUpdate) (t : Todo) :
    (applyRels db u t).status = t.status := by
  unfold applyRels
  rcases u.tag_ids with _ | ⟨_ | ids1⟩ <;>
    rcases u.assignee_ids with _ | ⟨_ | ids2⟩ <;>
      rcases u.dependency_ids with _ | ⟨_ | ids3⟩ <;> rfl

theorem updStep_id (db : DB) (u : TodoUpdate) (now : Int) (t : Todo) :
    (updStep db u now t).id = t.id := by
  unfold updStep applyStamp
  rw [apply_ite (fun x : Todo => x.id)]
  dsimp only
  rw [ite_self, applyRels_id]
  exact applyScalar_id u t

theorem updStep_status (db : DB) (u : TodoUpdate) (now : Int) (t : Todo) :
    (updStep db u now t).status = u.status.getD t.status := by
  unfold updStep applyStamp
  rw [apply_ite (fun x : Todo => x.status)]
  dsimp only
  rw [ite_self, applyRels_status]
  exact applyScalar_status u t

theorem updStep_completed_at (db : DB) (u : TodoUpdate) (now : Int) (t : Todo) :
    (updStep db u now t).completed_at =
      (if (u.status == some StatusLevel.completed && t.completed_at == Option.none) = true
       then some now else t.completed_at) := by
  unfold updStep applyStamp
  rw [apply_ite (fun x : Todo => x.completed_at)]
  dsimp only
  rw [applyRels_completed_at, applyScalar_completed_at]

theorem updStep_KTodo (db : DB) (u : TodoUpdate) (now : Int) (t : Todo) :
    KTodo t → KTodo (updStep db u now t) := by
  intro hK hcomp
  rw [updStep_status] at hcomp
  rw [updStep_completed_at]
  cases hs : u.status with
  | none =>
      rw [hs] at hcomp
      simp only [Option.getD_none] at hcomp
      have hb : ((Option.none : Option StatusLevel) == some StatusLevel.completed) = false := rfl
      simp only [hs, hb, Bool.false_and, Bool.false_eq_true, if_false]
      exact hK hcomp
  | some σ =>
      rw [hs] at hcomp
      simp only [Option.getD_some] at hcomp
      subst hcomp
      by_cases hc : t.completed_at = Option.none
      · simp [hs, hc]
      · simp [hs, hc]

theorem updStep_mono (db : DB) (u : TodoUpdate) (now : Int) (t : Todo) (c : Int) :
    t.completed_at = some c → (updStep db u now t).completed_at = some c := by
  intro h
  rw [updStep_completed_at]
  have hb : (t.completed_at == Option.none) = false := by simp [h]
  simp [hb, h]

theorem updStep_iff (db : DB) (u : TodoUpdate) (now : Int) (t : Todo) (hK : KTodo t) :
    ((updStep db u now t).completed_at ≠ Option.none ↔
      (t.completed_at ≠ Option.none ∨ (updStep db u now t).status = StatusLevel.completed)) := by
  rw [updStep_completed_at, updStep_status]
  cases hs : u.status with
  | none =>
      have hb : ((Option.none : Option StatusLevel) == some StatusLevel.completed) = false := rfl
      simp only [hb, Bool.false_and, Bool.false_eq_true, if_false, Option.getD_none]
      exact ⟨Or.inl, fun hh => hh.elim id hK⟩
  | some σ =>
      by_cases hσ : σ = StatusLevel.completed
      · subst hσ
        by_cases hc : t.completed_at = Option.none
        · simp [hc]
        · simp [hc]
      · have hb : ((some σ : Option StatusLevel) == some StatusLevel.completed) = false := by
          simp [hσ]
        simp only [hb, Bool.false_and, Bool.false_eq_true, if_false, Option.getD_some]
        exact ⟨Or.inl, fun hh => hh.elim id (fun hh2 => absurd hh2 hσ)⟩

theorem applyOp_todos_char (db : DB) (op : MutOp) (now : Int) (h : NonBulk op) :
    (applyOp db op now).todos = db.todos ∨
    ∃ j g, (∀ t : Todo, (g t).id = t.id) ∧
      (∀ t : Todo, KTodo t → KTodo (g t)) ∧
      (∀ (t : Todo) (c : Int), t.completed_at = some c → (g t).completed_at = some c) ∧
      (∀ t : Todo, KTodo t →
        ((g t).completed_at ≠ Option.none ↔
          (t.completed_at ≠ Option.none ∨ (g t).status = StatusLevel.completed))) ∧
      (applyOp db op now).todos = (mapTodo db j g).todos := by
  cases op with
  | bulk ids p => exact h.elim
  | update i u =>
      cases hf : findTodo db i with
      | none =>
          left
          simp [applyOp, update_todo, hf]
      | some t =>
          right
          refine ⟨i, updStep db u now, updStep_id db u now, updStep_KTodo db u now,
            updStep_mono db u now, updStep_iff db u now, ?_⟩
          simp only [applyOp, update_todo, hf]
          by_cases hch : changesOf u t = [] <;> simp [hch, log_activity, mapTodo]
  | timerStart i =>
      cases hf : findTodo db i with
      | none =>
          left
          simp [applyOp, start_timer, hf]
      | some t =>
          right
          refine ⟨i, fun x => { x with timer_started_at := some now, status := .in_progress },
            fun x => rfl, ?_, fun x c hc => hc, ?_, by simp [applyOp, start_timer, hf]⟩
          · intro x hKx hcomp
            exact StatusLevel.noConfusion hcomp
          · intro x hKx
            constructor
            · exact Or.inl
            · intro hh
              rcases hh with hh | hh
              · exact hh
              · exact StatusLevel.noConfusion hh
  | timerStop i =>
      cases hf : findTodo db i with
      | none =>
          left
          simp [applyOp, stop_timer, hf]
      | some t =>
          cases ht : t.timer_started_at with
          | none =>
              left
              simp [applyOp, stop_timer, hf, ht]
          | some t0 =>
              right
              refine ⟨i, fun x => stopStep now (x.timer_started_at.getD t0) x,
                fun x => rfl, fun x hKx hc => hKx hc, fun x c hc => hc, ?_,
                by simp [applyOp, stop_timer, hf, ht]⟩
              intro x hKx
              exact ⟨Or.inl, fun hh => hh.elim id hKx⟩
  | pomodoro i =>
      cases hf : findTodo db i with
      | none =>
          left
          simp [applyOp, complete_pomodoro, hf]
      | some t =>
          right
          refine ⟨i, fun x => { x with pomodoro_count := x.pomodoro_count + 1 },
            fun x => rfl, fun x hKx hc => hKx hc, fun x c hc => hc, ?_,
            by simp [applyOp, complete_pomodoro, hf]⟩
          intro x hKx
          exact ⟨Or.inl, fun hh => hh.elim id hKx⟩

theorem completedAt_eq_of_todos (db1 db2 : DB) (h : db1.todos = db2.todos) (i : Nat) :
    completedAt db1 i = completedAt db2 i := by
  unfold completedAt findTodo
  rw [h]

theorem statusCompletedB_eq_of_todos (db1 db2 : DB) (h : db1.todos = db2.todos) (i : Nat) :
    statusCompletedB db1 i = statusCompletedB db2 i := by
  unfold statusCompletedB findTodo
  rw [h]


theorem statusB_completedAt_ne (db : DB) (i : Nat)
    (hK : ∀ x ∈ db.todos, KTodo x) (hs : statusCompletedB db i = true) :
    completedAt db i ≠ Option.none := by
  unfold statusCompletedB at hs
  unfold completedAt
  cases hf : findTodo db i with
  | none => rw [hf] at hs; exact absurd hs (by simp)
  | some t =>
      rw [hf] at hs
      have hst : t.status = StatusLevel.completed := by simpa using hs
      have := hK t (findTodo_mem hf) hst
      simpa using this


theorem applyOp_K (db : DB) (op : MutOp) (now : Int) (h : NonBulk op)
    (hK : ∀ x ∈ db.todos, KTodo x) :
    ∀ x ∈ (applyOp db op now).todos, KTodo x := by
  rcases applyOp_todos_char db op now h with he | ⟨j, g, hid, hKg, hmono, hiffg, he⟩
  · rw [he]; exact hK
  · rw [he]
    intro x hx
    simp only [mapTodo] at hx
    rcases List.mem_map.mp hx with ⟨y, hy, rfl⟩
    by_cases hyj : (y.id == j) = true
    · rw [if_pos hyj]
      exact hKg y (hK y hy)
    · rw [if_neg hyj]
      exact hK y hy

theorem applyOp_mono (db : DB) (op : MutOp) (now : Int) (i : Nat) (c : Int)
    (h : NonBulk op) (hc : completedAt db i = some c) :
    completedAt (applyOp db op now) i = some c := by
  rcases applyOp_todos_char db op now h with he | ⟨j, g, hid, hKg, hmono, hiffg, he⟩
  · rw [completedAt_eq_of_todos (applyOp db op now) db he i]
    exact hc
  · rw [completedAt_eq_of_todos (applyOp db op now) (mapTodo db j g) he i]
    unfold completedAt at hc ⊢
    rw [findTodo_mapTodo db i j g hid]
    cases hf : findTodo db i with
    | none => rw [hf] at hc; exact absurd hc (by simp)
    | some t =>
        rw [hf] at hc
        have hc2 : t.completed_at = some c := hc
        show (if (t.id == j) = true then g t else t).completed_at = some c
        by_cases htj : (t.id == j) = true
        · rw [if_pos htj]
          exact hmono t c hc2
        · rw [if_neg htj]
          exact hc2

theorem applyOp_iff (db : DB) (op : MutOp) (now : Int) (i : Nat)
    (h : NonBulk op) (hK : ∀ x ∈ db.todos, KTodo x) :
    (completedAt (applyOp db op now) i ≠ Option.none ↔
      (completedAt db i ≠ Option.none ∨ statusCompletedB (applyOp db op now) i = true)) := by
  rcases applyOp_todos_char db op now h with he | ⟨j, g, hid, hKg, hmono, hiffg, he⟩
  · rw [completedAt_eq_of_todos (applyOp db op now) db he i,
        statusCompletedB_eq_of_todos (applyOp db op now) db he i]
    exact ⟨Or.inl, fun hh => hh.elim id (statusB_completedAt_ne db i hK)⟩
  · rw [completedAt_eq_of_todos (applyOp db op now) (mapTodo db j g) he i,
        statusCompletedB_eq_of_todos (applyOp db op now) (mapTodo db j g) he i]
    unfold completedAt statusCompletedB
    rw [findTodo_mapTodo db i j g hid]
    cases hf : findTodo db i with
    | none => simp
    | some t =>
        have hKt : KTodo t := hK t (findTodo_mem hf)
        show ((if (t.id == j) = true then g t else t).completed_at ≠ Option.none ↔
          (t.completed_at ≠ Option.none ∨
            ((if (t.id == j) = true then g t else t).status == StatusLevel.completed) = true))
        by_cases htj : (t.id == j) = true
        · rw [if_pos htj]
          simp only [beq_iff_eq]
          exact hiffg t hKt
        · rw [if_neg htj]
          simp only [beq_iff_eq]
          exact ⟨Or.inl, fun hh => hh.elim id hKt⟩

theorem everCompleted_of_statusB (db : DB) (i : Nat) (ops : List (MutOp × Int))
    (hs : statusCompletedB db i = true) : everCompleted db i ops = true := by
  cases ops with
  | nil => exact hs
  | cons p rest => simp [everCompleted, hs]

theorem runOps_iff (i : Nat) (ops : List (MutOp × Int)) :
    ∀ db : DB, (∀ x ∈ db.todos, KTodo x) → (∀ p ∈ ops, NonBulk p.1) →
    (completedAt (runOps db ops) i ≠ Option.none ↔
      (completedAt db i ≠ Option.none ∨ everCompleted db i ops = true)) := by
  induction ops with
  | nil =>
      intro db hK _
      show completedAt db i ≠ Option.none ↔
        (completedAt db i ≠ Option.none ∨ statusCompletedB db i = true)
      exact ⟨Or.inl, fun hh => hh.elim id (statusB_completedAt_ne db i hK)⟩
  | cons p ops ih =>
      intro db hK hnb
      have h1 : NonBulk p.1 := hnb p (List.mem_cons_self p ops)
      have hK' := applyOp_K db p.1 p.2 h1 hK
      have hstep := applyOp_iff db p.1 p.2 i h1 hK
      have hih := ih (applyOp db p.1 p.2) hK' (fun q hq => hnb q (List.mem_cons_of_mem p hq))
      have hrun : runOps db (p :: ops) = runOps (applyOp db p.1 p.2) ops := rfl
      rw [hrun, hih, hstep]
      show (completedAt db i ≠ Option.none ∨ statusCompletedB (applyOp db p.1 p.2) i = true) ∨
          everCompleted (applyOp db p.1 p.2) i ops = true ↔
        (completedAt db i ≠ Option.none ∨
          (statusCompletedB db i || everCompleted (applyOp db p.1 p.2) i ops) = true)
      rw [Bool.or_eq_true]
      constructor
      · rintro ((hh | hh) | hh)
        · exact Or.inl hh
        · exact Or.inr (Or.inr (everCompleted_of_statusB _ i ops hh))
        · exact Or.inr (Or.inr hh)
      · rintro (hh | (hh | hh))
        · exact Or.inl (Or.inl hh)
        · exact Or.inl (Or.inl (statusB_completedAt_ne db i hK hh))
        · exact Or.inr hh

theorem runOps_mono (i : Nat) (c : Int) (ops : List (MutOp × Int)) :
    ∀ db : DB, (∀ p ∈ ops, NonBulk p.1) → completedAt db i = some c →
    completedAt (runOps db ops) i = some c := by
  induction ops with
  | nil => intro db _ hc; exact hc
  | cons p ops ih =>
      intro db hnb hc
      have h1 : NonBulk p.1 := hnb p (List.mem_cons_self p ops)
      exact ih (applyOp db p.1 p.2) (fun q hq => hnb q (List.mem_cons_of_mem p hq))
        (applyOp_mono db p.1 p.2 i c h1 hc)

theorem runOps_append (db : DB) (l1 l2 : List (MutOp × Int)) :
    runOps db (l1 ++ l2) = runOps (runOps db l1) l2 := by
  unfold runOps
  exact List.foldl_append _ _ l1 l2

/-- C1 amended: under sequences of single-todo update, timer start/stop and
pomodoro operations starting from a store with no completions, completed_at
is non-null exactly when the todo's status has ever been completed, and a
completion stamp present after any prefix of the sequence persists unchanged
to the end (never overwritten by a later completion, never cleared — the
single-todo update schema carries no completed_at key).  The restriction to
non-bulk operations is forced: the storage-level bulk update sets status to
completed without stamping completed_at (see the counterexample). -/
theorem completedAt_iff_everCompleted_nonbulk (db : DB) (ops : List (MutOp × Int))
    (i : Nat) (hops : ∀ p ∈ ops, NonBulk p.1) (hfr : Fresh db) :
    (completedAt (runOps db ops) i ≠ Option.none ↔ everCompleted db i ops = true) ∧
    (∀ n c, completedAt (runOps db (ops.take n)) i = some c →
      completedAt (runOps db ops) i = some c) := by
  have hK : ∀ x ∈ db.todos, KTodo x := fun x hx hcomp => absurd hcomp (hfr x hx).2
  have hnull : completedAt db i = Option.none := by
    unfold completedAt
    cases hf : findTodo db i with
    | none => rfl
    | some t => simp [(hfr t (findTodo_mem hf)).1]
  constructor
  · rw [runOps_iff i ops db hK hops, hnull]
    simp
  · intro n c hc
    have hsplit : runOps db ops = runOps (runOps db (ops.take n)) (ops.drop n) := by
      conv_lhs => rw [← List.take_append_drop n ops]
      exact runOps_append db (ops.take n) (ops.drop n)
    rw [hsplit]
    exact runOps_mono i c (ops.drop n) (runOps db (ops.take n))
      (fun q hq => hops q (List.drop_subset n ops hq)) hc

/-- C1 witness: one fresh todo; a single-todo update to completed makes the
iff concrete — after the run completed_at is stamped and the status history
includes completed. -/
theorem completedAt_iff_everCompleted_witness :
    completedAt (runOps freshDB [(MutOp.update 1 completeUpdate, 100)]) 1 ≠ Option.none ∧
    everCompleted freshDB 1 [(MutOp.update 1 completeUpdate, 100)] = true ∧
    completedAt (runOps freshDB [(MutOp.update 1 completeUpdate, 100)]) 1 = some 100 := by
  have h := completedAt_iff_everCompleted_nonbulk freshDB
    [(MutOp.update 1 completeUpdate, 100)] 1
    (by
      intro p hp
      rw [List.mem_singleton] at hp
      subst hp
      trivial)
    (by
      intro t ht
      have ht2 : t = baseTodo 1 "f" 0 := by simpa [freshDB, mkDB] using ht
      subst ht2
      exact ⟨rfl, by simp [baseTodo]⟩)
  have hev : everCompleted freshDB 1 [(MutOp.update 1 completeUpdate, 100)] = true := by rfl
  exact ⟨h.1.mpr hev, hev, by rfl⟩

/-- C1 counterexample: on a fresh store, the bulk-complete operation (the
claim's own "bulk update/complete" alphabet) leaves a todo whose status is
completed — so its status has been set to completed — while completed_at is
still null, falsifying the claimed iff. -/
theorem bulk_complete_skips_completed_at :
    statusCompletedB (runOps freshDB [(MutOp.bulk [1] completePayload, 100)]) 1 = true ∧
    completedAt (runOps freshDB [(MutOp.bulk [1] completePayload, 100)]) 1 = Option.none ∧
    everCompleted freshDB 1 [(MutOp.bulk [1] completePayload, 100)] = true := by
  exact ⟨rfl, rfl, rfl⟩
